import Mathlib

/-!
# PetForge video-studio batch pipeline — verification development

Shallow embedding of the batch-processing logic of the PetForge
video-studio frontend:

* `src/video-studio/src/lib/batchUtils.ts` — pure helpers
  (`parseStoryboardSegments`, `getNextSegmentIndex`,
  `calculatePendingSegments`, `groupTasksBySegmentIndex`,
  `filterTasksForStoryboard`, `filterTasksForMerge`).
* `src/video-studio/src/pages/BatchPage.reducer.ts` — `pageReducer`.
* `src/video-studio/src/pages/BatchPage.tsx` — the batch handlers
  (`handleGenerateStoryboards`, `handleBatchEditConfirm`,
  `handleMergeVideos`), modelled over an oracle for the network calls.
* The backend `cascadeRedo` operation, which is not part of the
  frontend sources; it is modelled from the specification (§4.5).

JavaScript values flowing out of `JSON.parse` are embedded as the
inductive `JValue`; JavaScript truthiness and the `||` default idiom
are embedded explicitly.  Member access on a JSON `null` (which throws
a `TypeError` in JavaScript) is modelled as yielding `undefined`
(`Option.none`); no claim below depends on inputs that hit that case.
-/

namespace PetForge

/-- A JSON value as produced by `JSON.parse`.  Numbers are embedded as
integers; none of the verified code computes with numeric fields. -/
inductive JValue where
  | jnull : JValue
  | jbool : Bool → JValue
  | jnum : Int → JValue
  | jstr : String → JValue
  | jarr : List JValue → JValue
  | jobj : List (String × JValue) → JValue
deriving Repr

/-- JavaScript truthiness of a defined value: `null`, `false`, `0` and
`""` are falsy; every array and object (even empty) is truthy. -/
def jTruthy : JValue → Bool
  | .jnull => false
  | .jbool b => b
  | .jnum n => n != 0
  | .jstr s => s != ""
  | .jarr _ => true
  | .jobj _ => true

/-- Truthiness of a possibly-`undefined` value. -/
def jTruthyOpt : Option JValue → Bool
  | none => false
  | some v => jTruthy v

/-- First-match key lookup in a JSON object (JSON object keys are
unique, so first match is the match). -/
def jlookup : List (String × JValue) → String → Option JValue
  | [], _ => none
  | (k, v) :: rest, key => if k = key then some v else jlookup rest key

/-- JavaScript member access `v.key` for a parsed JSON value:
`undefined` on non-objects (see the module docstring for `null`). -/
def jget : JValue → String → Option JValue
  | .jobj fields, key => jlookup fields key
  | _, _ => none

/-- JavaScript `a || b` where `a` may be `undefined` and the result is
always defined (`b` is a literal in all uses below). -/
def jsOr (a : Option JValue) (b : JValue) : JValue :=
  match a with
  | some v => if jTruthy v then v else b
  | none => b

/-- JavaScript `a || b` where both operands may be `undefined`. -/
def jsOrOpt (a b : Option JValue) : Option JValue :=
  if jTruthyOpt a then a else b

/-- Truthiness of an optional string field such as
`task.openingImageUrl` (absent or empty is falsy). -/
def strTruthy : Option String → Bool
  | none => false
  | some s => s != ""

/-- JavaScript `a || b` on two optional string fields. -/
def strOr (a b : Option String) : Option String :=
  if strTruthy a then a else b

/-- The `storyboardJson` field of a task, as consumed by
`parseStoryboardSegments`: either falsy (`undefined`, `null` or the
empty string), a non-empty string rejected by `JSON.parse`, or a
non-empty string parsing to a JSON value. -/
inductive StoryboardJson where
  | missing : StoryboardJson
  | malformed : StoryboardJson
  | parsed : JValue → StoryboardJson
deriving Repr

/-- Truthiness of the `storyboardJson` field (`!task.storyboardJson`). -/
def sjTruthy : StoryboardJson → Bool
  | .missing => false
  | .malformed => true
  | .parsed _ => true

/-- The test `x && Array.isArray(x)` on a member-access result, paired
with the extracted elements: arrays are always truthy, so the test
accepts exactly the arrays. -/
def asArray : Option JValue → Option (List JValue)
  | some (.jarr a) => some a
  | _ => none

/-- Embeds `parseStoryboardSegments` (batchUtils.ts:15-35).  Falsy input gives
`[]`; a `JSON.parse` failure is caught and gives `[]`; on a parsed
value the code returns `parsed.storyboards` when truthy and an array,
else `parsed.segments` when truthy and an array, else the value itself
when it is an array, else `[]`.  (For a parsed `null`, the member
access throws inside the same `try` and the `catch` returns `[]`,
which coincides with the fall-through case here.) -/
def parseStoryboardSegments : StoryboardJson → List JValue
  | .missing => []
  | .malformed => []
  | .parsed v =>
    match asArray (jget v "storyboards") with
    | some a => a
    | none =>
      match asArray (jget v "segments") with
      | some a => a
      | none =>
        match v with
        | .jarr a => a
        | _ => []

/-- Embeds `BatchTaskStatus` (types/index.ts:75-90): the closed union of task
statuses.  The seven `generating_segment_<i>` members are collected in
one constructor carrying the segment number `i < 7`. -/
inductive BatchTaskStatus where
  | pending
  | storyboard_generating
  | storyboard_ready
  | generating_segment : Fin 7 → BatchTaskStatus
  | all_segments_ready
  | merging
  | completed
  | failed
  | image_failed
deriving DecidableEq, Repr

/-- The test `task.status.startsWith('generating_segment_')`, evaluated over the
closed `BatchTaskStatus` union: exactly the seven
`generating_segment_<i>` members have that prefix. -/
def statusIsGeneratingSegment : BatchTaskStatus → Bool
  | .generating_segment _ => true
  | _ => false

/-- The status of one entry of `BatchTask.segments`
(types/index.ts:96). -/
inductive BatchSegmentStatus where
  | pending
  | generating
  | completed
  | failed
deriving DecidableEq, Repr

/-- The runtime string of a `BatchSegmentStatus` value. -/
def BatchSegmentStatus.str : BatchSegmentStatus → String
  | .pending => "pending"
  | .generating => "generating"
  | .completed => "completed"
  | .failed => "failed"

/-- Embeds `BatchSegment` (types/index.ts:93-97). -/
structure BatchSegment where
  videoUrl : Option String
  lastFrameUrl : Option String
  status : BatchSegmentStatus
deriving Repr

/-- Embeds `BatchTask` (types/index.ts:100-116), restricted to the fields the
verified functions read. -/
structure BatchTask where
  id : String
  projectId : Option String
  openingImageUrl : Option String
  segmentCount : Nat
  storyboardJson : StoryboardJson
  segments : List BatchSegment
  status : BatchTaskStatus
  errorMessage : Option String
deriving Repr

/-- The per-segment view built inside `getNextSegmentIndex`
(batchUtils.ts:66-73): either a typed `task.segments` entry or the
normalisation of a raw storyboard JSON element.  Only `status` is read
by the selection loop; `videoUrl`/`lastFrameUrl` are carried for
fidelity. -/
structure SegView where
  status : JValue
  videoUrl : Option JValue
  lastFrameUrl : Option JValue
deriving Repr

/-- View of a typed `task.segments` entry. -/
def segViewOfBatch (s : BatchSegment) : SegView :=
  { status := .jstr s.status.str
  , videoUrl := s.videoUrl.map .jstr
  , lastFrameUrl := s.lastFrameUrl.map .jstr }

/-- View of a raw storyboard element (batchUtils.ts:69-73):
`{status: seg.status || 'pending', videoUrl: seg.videoUrl ||
seg.video_url, lastFrameUrl: seg.lastFrameUrl || seg.last_frame_url}`. -/
def segViewOfJson (seg : JValue) : SegView :=
  { status := jsOr (jget seg "status") (.jstr "pending")
  , videoUrl := jsOrOpt (jget seg "videoUrl") (jget seg "video_url")
  , lastFrameUrl := jsOrOpt (jget seg "lastFrameUrl") (jget seg "last_frame_url") }

/-- The test of `seg.status || 'pending'` against `'completed'` for a view entry: the
defaulted status is the string `"completed"`. -/
def svCompleted (s : SegView) : Bool :=
  match jsOr (some s.status) (.jstr "pending") with
  | .jstr t => t = "completed"
  | _ => false

/-- The unified segment list of `getNextSegmentIndex`
(batchUtils.ts:66-73): `task.segments` when non-empty, otherwise the
normalised parse of `task.storyboardJson`. -/
def effSegments (task : BatchTask) : List SegView :=
  if task.segments.length > 0 then task.segments.map segViewOfBatch
  else (parseStoryboardSegments task.storyboardJson).map segViewOfJson

/-- The selection loop of `getNextSegmentIndex` (batchUtils.ts:85-107).
`i` is the index of the head of `segs` in the full list and `prev` the
entry at `i - 1` (absent only at `i = 0`).  At the first entry whose
defaulted status is not `completed`: for index 0, select 0 when the
opening image is truthy and nothing otherwise; for a later index,
select it when the predecessor's defaulted status is `completed` and
nothing otherwise. -/
def nextSegLoop (openingTruthy : Bool) :
    Nat → Option SegView → List SegView → Option Nat
  | _, _, [] => none
  | i, prev, seg :: rest =>
    if ¬ svCompleted seg then
      if i = 0 then
        if openingTruthy then some 0 else none
      else
        match prev with
        | some prevSeg => if svCompleted prevSeg then some i else none
        | none => none
    else
      nextSegLoop openingTruthy (i + 1) (some seg) rest

/-- Embeds `getNextSegmentIndex` (batchUtils.ts:44-111). -/
def getNextSegmentIndex (task : BatchTask) : Option Nat :=
  if ¬ sjTruthy task.storyboardJson then none
  else if statusIsGeneratingSegment task.status
      || task.status = .merging || task.status = .storyboard_generating then none
  else if task.status = .completed then none
  else
    let segments := effSegments task
    if segments.length = 0 then none
    else nextSegLoop (strTruthy task.openingImageUrl) 0 none segments

/-- The normalised storyboard record built by `calculatePendingSegments`
(batchUtils.ts:194-208).  Every text field is the raw JSON field
defaulted through `||`, hence a defined `JValue`. -/
structure NormSegment where
  id : JValue
  segmentIndex : Nat
  segmentType : JValue
  crucial : JValue
  action : JValue
  sound : JValue
  negative_constraint : JValue
  prompt : JValue
  status : JValue
  crucial_zh : JValue
  action_zh : JValue
  sound_zh : JValue
  negative_constraint_zh : JValue
deriving Repr

/-- Embeds `PendingSegmentInfo` (batchUtils.ts:133-146). -/
structure PendingSegmentInfo where
  taskId : String
  taskIndex : Nat
  projectId : String
  segmentIndex : Nat
  segment : Option NormSegment
  inputFrameUrl : Option JValue
  inputFrameLabel : String
deriving Repr

/-- The task pre-filter shared by the batch helpers and handlers
(batchUtils.ts:158-161, 225-228; BatchPage.tsx): the selected records
when the selection is non-empty, otherwise every task. -/
def tasksToProcess (tasks : List BatchTask) (selectedRecordIds : List String) :
    List BatchTask :=
  if selectedRecordIds.length > 0 then
    tasks.filter (fun t => selectedRecordIds.contains t.id)
  else tasks

/-- Normalisation of `storyboards[nextSeg]` (batchUtils.ts:194-208). -/
def normSegment (segmentData : JValue) (nextSeg : Nat) : NormSegment :=
  { id := jsOr (jget segmentData "id") (.jstr ("segment-" ++ toString nextSeg))
  , segmentIndex := nextSeg
  , segmentType := jsOr (jsOrOpt (jget segmentData "segment_type")
      (jget segmentData "segmentType")) (.jstr "eating")
  , crucial := jsOr (jget segmentData "crucial") (.jstr "")
  , action := jsOr (jget segmentData "action") (.jstr "")
  , sound := jsOr (jget segmentData "sound") (.jstr "")
  , negative_constraint := jsOr (jget segmentData "negative_constraint") (.jstr "")
  , prompt := jsOr (jget segmentData "prompt") (.jstr "")
  , status := jsOr (jget segmentData "status") (.jstr "pending")
  , crucial_zh := jsOr (jget segmentData "crucial_zh") (.jstr "")
  , action_zh := jsOr (jget segmentData "action_zh") (.jstr "")
  , sound_zh := jsOr (jget segmentData "sound_zh") (.jstr "")
  , negative_constraint_zh := jsOr (jget segmentData "negative_constraint_zh") (.jstr "") }

/-- The loop body of `calculatePendingSegments` (batchUtils.ts:165-213)
for one task at position `idx` of the processed list: skip the task
when no next segment is selected or the selected index is outside the
parsed storyboard; otherwise build the pending-segment record, whose
input frame is the opening image at index 0 and, at a later index,
`prevSegFromTask?.lastFrameUrl || prevSegFromStoryboard?.lastFrameUrl
|| prevSegFromStoryboard?.last_frame_url`. -/
def pendingInfoOfTask (task : BatchTask) (idx : Nat) : Option PendingSegmentInfo :=
  match getNextSegmentIndex task with
  | none => none
  | some nextSeg =>
    let storyboards := parseStoryboardSegments task.storyboardJson
    match storyboards.get? nextSeg with
    | none => none
    | some segmentData =>
      let inputFrameUrl : Option JValue :=
        if nextSeg = 0 then task.openingImageUrl.map .jstr
        else
          jsOrOpt (jsOrOpt
            (((task.segments.get? (nextSeg - 1)).bind (·.lastFrameUrl)).map .jstr)
            ((storyboards.get? (nextSeg - 1)).bind (jget · "lastFrameUrl")))
            ((storyboards.get? (nextSeg - 1)).bind (jget · "last_frame_url"))
      let inputFrameLabel : String :=
        if nextSeg = 0 then "Opening Image"
        else "段" ++ toString (nextSeg - 1) ++ " Last Frame"
      some
        { taskId := task.id
        , taskIndex := idx
        , projectId := (strOr task.projectId (some "")).getD ""
        , segmentIndex := nextSeg
        , segment := if jTruthy segmentData then some (normSegment segmentData nextSeg)
            else none
        , inputFrameUrl := inputFrameUrl
        , inputFrameLabel := inputFrameLabel }

/-- Embeds `calculatePendingSegments` (batchUtils.ts:153-216). -/
def calculatePendingSegments (tasks : List BatchTask)
    (selectedRecordIds : List String) : List PendingSegmentInfo :=
  ((tasksToProcess tasks selectedRecordIds).enum).filterMap
    (fun p => pendingInfoOfTask p.2 p.1)

/-- Embeds `groupTasksBySegmentIndex` (batchUtils.ts:221-253), viewed as the
total function from a segment index to the ids pushed into its group
(an index absent from the record corresponds to the empty list). -/
def groupTasksBySegmentIndex (tasks : List BatchTask)
    (selectedRecordIds : List String) : Nat → List String :=
  fun i =>
    (tasksToProcess tasks selectedRecordIds).filterMap
      (fun t =>
        match getNextSegmentIndex t with
        | some j => if j = i then some t.id else none
        | none => none)

/-- Embeds `filterTasksForStoryboard` (batchUtils.ts:270-274). -/
def filterTasksForStoryboard (tasks : List BatchTask) : List BatchTask :=
  tasks.filter (fun t =>
    strTruthy t.openingImageUrl &&
      (t.status = .pending || t.status = .storyboard_ready))

/-- Embeds `filterTasksForMerge` (batchUtils.ts:279-281). -/
def filterTasksForMerge (tasks : List BatchTask) : List BatchTask :=
  tasks.filter (fun t => t.status = .all_segments_ready)

/-- Embeds `filterTasksWithProject` (batchUtils.ts:286-288). -/
def filterTasksWithProject (tasks : List BatchTask) : List BatchTask :=
  tasks.filter (fun t => strTruthy t.projectId)

/-- The record ids `handleGenerateStoryboards` (BatchPage.tsx:594-629)
submits to the storyboard-generation API: `none` when the handler
returns early (empty processed list or no eligible task) and hence
performs no request. -/
def storyboardSubmission (tasks : List BatchTask)
    (selectedRecordIds : List String) : Option (List String) :=
  if (tasksToProcess tasks selectedRecordIds).length = 0 then none
  else if (filterTasksForStoryboard
      (tasksToProcess tasks selectedRecordIds)).length = 0 then none
  else some ((filterTasksForStoryboard
      (tasksToProcess tasks selectedRecordIds)).map (·.id))

/-- The record ids `handleMergeVideos` (BatchPage.tsx:852-886) submits
to the merge API: `none` when the handler returns early and performs
no request. -/
def mergeSubmission (tasks : List BatchTask)
    (selectedRecordIds : List String) : Option (List String) :=
  if (tasksToProcess tasks selectedRecordIds).length = 0 then none
  else if (filterTasksForMerge
      (tasksToProcess tasks selectedRecordIds)).length = 0 then none
  else some ((filterTasksForMerge
      (tasksToProcess tasks selectedRecordIds)).map (·.id))

/-- One entry of the `edits` array passed to `handleBatchEditConfirm`
(BatchPage.tsx:645-661).  The prompt text fields are forwarded
verbatim to the save call and never influence the fan-out aggregation,
so they are not tracked. -/
structure BatchEdit where
  taskId : String
  projectId : String
  segmentIndex : Nat
  isModified : Bool
deriving DecidableEq, Repr

/-- Outcome of one `batchApi.generateSegments` call: the promise either
rejects (`thrown`) or resolves with `{success_count, failed_count}`. -/
inductive GenOutcome where
  | thrown : GenOutcome
  | ok : Nat → Nat → GenOutcome
deriving DecidableEq, Repr

/-- The record returned by `handleBatchEditConfirm`
(BatchPage.tsx:662, 746-759). -/
structure BatchEditResult where
  success : Bool
  successCount : Nat
  failedCount : Nat
  error : Option String
deriving DecidableEq, Repr

/-- The empty `segmentGroups` record (BatchPage.tsx:695), viewed as the
total function from a segment index to its group (absent key ≙ `[]`). -/
def emptyGroups : Nat → List String := fun _ => []

/-- One `segmentGroups[e.segmentIndex].push(e.taskId)` step
(BatchPage.tsx:696-701). -/
def pushGroup (g : Nat → List String) (i : Nat) (id : String) :
    Nat → List String :=
  fun j => if j = i then g j ++ [id] else g j

/-- The grouping pass of `handleBatchEditConfirm` (BatchPage.tsx:695-701):
fold the push step over the edits in order. -/
def buildGroups (edits : List BatchEdit) : Nat → List String :=
  edits.foldl (fun g e => pushGroup g e.segmentIndex e.taskId) emptyGroups

/-- The largest segment index mentioned in the edits (0 when none). -/
def maxSegIdx (edits : List BatchEdit) : Nat :=
  (edits.map (·.segmentIndex)).foldr max 0

/-- The key list `Object.keys(segmentGroups).map(Number).sort((a, b) => a - b)`
(BatchPage.tsx:703-705): the distinct segment indices occurring in the
edits, in ascending order — embedded as the ascending range filtered
to the occurring indices, which is that sorted key list. -/
def sortedEditIndices (edits : List BatchEdit) : List Nat :=
  (List.range (maxSegIdx edits + 1)).filter
    (fun i => edits.any (fun e => e.segmentIndex = i))

/-- The fan-out loop of `handleBatchEditConfirm` (BatchPage.tsx:710-727):
one `generateSegments` call per segment-index group, a rejection
caught per group adding the group's size to the failure total, later
groups still attempted.  Returns the success total, the failure total
and the trace of `(segmentIndex, recordIds)` calls issued. -/
def runSegmentGroups (gen : Nat → List String → GenOutcome)
    (groups : Nat → List String) :
    List Nat → Nat × Nat × List (Nat × List String)
  | [] => (0, 0, [])
  | i :: rest =>
    let res := runSegmentGroups gen groups rest
    match gen i (groups i) with
    | .ok sc fc => (sc + res.1, fc + res.2.1, (i, groups i) :: res.2.2)
    | .thrown => (res.1, (groups i).length + res.2.1, (i, groups i) :: res.2.2)

/-- Embeds `handleBatchEditConfirm` (BatchPage.tsx:645-761), over an oracle
`gen` for the per-group `generateSegments` calls.  `saveOutcome` is
the outcome of the initial save step: `none` when it does not throw
(in particular when no edit is modified), `some msg` when it throws
with message `msg`, in which case the outer `catch` reports all edits
failed and no generation call is issued. -/
def handleBatchEditConfirm (gen : Nat → List String → GenOutcome)
    (saveOutcome : Option String) (edits : List BatchEdit) :
    BatchEditResult × List (Nat × List String) :=
  match saveOutcome with
  | some msg =>
    ({ success := false, successCount := 0, failedCount := edits.length
     , error := some msg }, [])
  | none =>
    let segmentGroups := buildGroups edits
    let res := runSegmentGroups gen segmentGroups (sortedEditIndices edits)
    ({ success := res.2.1 = 0, successCount := res.1, failedCount := res.2.1
     , error := none }, res.2.2)

/-- Embeds `PageStatus` (BatchPage.types.ts:13-22). -/
inductive PageStatus where
  | idle
  | connecting
  | loadingTasks
  | generatingStoryboard
  | generatingSegment
  | merging
  | syncing
  | uploadingToDrive
  | error
deriving DecidableEq, Repr

/-- Embeds `FeishuConfig` (types/index.ts:62-72). -/
structure FeishuConfigState where
  appId : String
  appSecret : String
  appToken : Option String
  tenantAccessToken : Option String
  tableId : String
  connected : Bool
  tableName : Option String
  recordCount : Option Nat
  driveFolderToken : Option String
deriving DecidableEq, Repr

/-- Embeds `Partial<FeishuConfig>`: `none` marks a key absent from the payload
object, `some v` a key present with value `v` (a present-but-undefined
key is `some none` for the optional fields). -/
structure PartialFeishuConfig where
  appId : Option String := none
  appSecret : Option String := none
  appToken : Option (Option String) := none
  tenantAccessToken : Option (Option String) := none
  tableId : Option String := none
  connected : Option Bool := none
  tableName : Option (Option String) := none
  recordCount : Option (Option Nat) := none
  driveFolderToken : Option (Option String) := none
deriving DecidableEq, Repr

/-- The object spread `{...state.feishuConfig, ...action.payload}`. -/
def mergeFeishuConfig (c : FeishuConfigState) (p : PartialFeishuConfig) :
    FeishuConfigState :=
  { appId := p.appId.getD c.appId
  , appSecret := p.appSecret.getD c.appSecret
  , appToken := p.appToken.getD c.appToken
  , tenantAccessToken := p.tenantAccessToken.getD c.tenantAccessToken
  , tableId := p.tableId.getD c.tableId
  , connected := p.connected.getD c.connected
  , tableName := p.tableName.getD c.tableName
  , recordCount := p.recordCount.getD c.recordCount
  , driveFolderToken := p.driveFolderToken.getD c.driveFolderToken }

/-- Embeds `BatchSettings` (types/index.ts:127-131). -/
structure BatchSettings where
  storyboardConcurrency : Nat
  videoConcurrency : Nat
  writebackBatchSize : Nat
deriving DecidableEq, Repr

/-- Embeds `Partial<BatchSettings>`. -/
structure PartialBatchSettings where
  storyboardConcurrency : Option Nat := none
  videoConcurrency : Option Nat := none
  writebackBatchSize : Option Nat := none
deriving DecidableEq, Repr

/-- The object spread `{...state.settings, ...action.payload}`. -/
def mergeSettings (s : BatchSettings) (p : PartialBatchSettings) :
    BatchSettings :=
  { storyboardConcurrency := p.storyboardConcurrency.getD s.storyboardConcurrency
  , videoConcurrency := p.videoConcurrency.getD s.videoConcurrency
  , writebackBatchSize := p.writebackBatchSize.getD s.writebackBatchSize }

/-- Embeds `PageState` (BatchPage.types.ts:27-52).  The status filter value
`'all'` is embedded as `none`. -/
structure PageState where
  status : PageStatus
  errorMessage : Option String
  feishuConfig : FeishuConfigState
  tasks : List BatchTask
  selectedTaskId : Option String
  selectedRecordIds : List String
  statusFilter : Option BatchTaskStatus
  showDetail : Bool
  sidebarCollapsed : Bool
  showBatchEditModal : Bool
  queueOpen : Bool
  currentSegmentIndex : Nat
  settings : BatchSettings
deriving Repr

/-- Embeds `PageAction` (BatchPage.types.ts:56-107). -/
inductive PageAction where
  | CONNECT_START
  | CONNECT_SUCCESS (tableName : String) (recordCount : Nat)
      (driveFolderToken : Option String)
  | CONNECT_FAILURE (msg : String)
  | DISCONNECT
  | LOAD_TASKS_START
  | LOAD_TASKS_SUCCESS (tasks : List BatchTask)
  | LOAD_TASKS_FAILURE (msg : String)
  | GENERATE_STORYBOARD_START
  | GENERATE_STORYBOARD_SUCCESS (successCount failedCount : Nat)
  | GENERATE_STORYBOARD_FAILURE (msg : String)
  | GENERATE_SEGMENT_START (segmentIndex : Nat)
  | GENERATE_SEGMENT_SUCCESS (successCount failedCount : Nat)
  | GENERATE_SEGMENT_FAILURE (msg : String)
  | MERGE_START
  | MERGE_SUCCESS (successCount failedCount : Nat)
  | MERGE_FAILURE (msg : String)
  | SYNC_START
  | SYNC_SUCCESS
  | SYNC_FAILURE (msg : String)
  | UPLOAD_TO_DRIVE_START
  | UPLOAD_TO_DRIVE_SUCCESS (success total failed : Nat)
  | UPLOAD_TO_DRIVE_FAILURE (msg : String)
  | SELECT_TASK (id : Option String)
  | SET_SELECTED_RECORDS (ids : List String)
  | SET_STATUS_FILTER (filter : Option BatchTaskStatus)
  | SET_SHOW_DETAIL (b : Bool)
  | SET_SIDEBAR_COLLAPSED (b : Bool)
  | SET_SHOW_BATCH_EDIT_MODAL (b : Bool)
  | SET_QUEUE_OPEN (b : Bool)
  | UPDATE_FEISHU_CONFIG (payload : PartialFeishuConfig)
  | UPDATE_SETTINGS (payload : PartialBatchSettings)
  | CLEAR_ERROR

/-- Embeds `pageReducer` (BatchPage.reducer.ts:8-248). -/
def pageReducer (state : PageState) (action : PageAction) : PageState :=
  match action with
  | .CONNECT_START =>
    { state with status := .connecting, errorMessage := none }
  | .CONNECT_SUCCESS tableName recordCount driveFolderToken =>
    { state with
      status := .idle
    , feishuConfig :=
        { state.feishuConfig with
          connected := true
        , tableName := some tableName
        , recordCount := some recordCount
        , driveFolderToken :=
            strOr driveFolderToken state.feishuConfig.driveFolderToken } }
  | .CONNECT_FAILURE msg =>
    { state with status := .error, errorMessage := some msg }
  | .DISCONNECT =>
    { state with feishuConfig := { state.feishuConfig with connected := false } }
  | .LOAD_TASKS_START =>
    { state with status := .loadingTasks, errorMessage := none }
  | .LOAD_TASKS_SUCCESS tasks =>
    { state with status := .idle, tasks := tasks }
  | .LOAD_TASKS_FAILURE msg =>
    { state with status := .error, errorMessage := some msg }
  | .GENERATE_STORYBOARD_START =>
    { state with status := .generatingStoryboard, errorMessage := none }
  | .GENERATE_STORYBOARD_SUCCESS _ _ =>
    { state with status := .idle }
  | .GENERATE_STORYBOARD_FAILURE msg =>
    { state with status := .error, errorMessage := some msg }
  | .GENERATE_SEGMENT_START segmentIndex =>
    { state with
      status := .generatingSegment
    , currentSegmentIndex := segmentIndex
    , errorMessage := none }
  | .GENERATE_SEGMENT_SUCCESS _ _ =>
    { state with status := .idle }
  | .GENERATE_SEGMENT_FAILURE msg =>
    { state with status := .error, errorMessage := some msg }
  | .MERGE_START =>
    { state with status := .merging, errorMessage := none }
  | .MERGE_SUCCESS _ _ =>
    { state with status := .idle }
  | .MERGE_FAILURE msg =>
    { state with status := .error, errorMessage := some msg }
  | .SYNC_START =>
    { state with status := .syncing, errorMessage := none }
  | .SYNC_SUCCESS =>
    { state with status := .idle }
  | .SYNC_FAILURE msg =>
    { state with status := .error, errorMessage := some msg }
  | .UPLOAD_TO_DRIVE_START =>
    { state with status := .uploadingToDrive, errorMessage := none }
  | .UPLOAD_TO_DRIVE_SUCCESS _ _ _ =>
    { state with status := .idle }
  | .UPLOAD_TO_DRIVE_FAILURE msg =>
    { state with status := .error, errorMessage := some msg }
  | .SELECT_TASK id => { state with selectedTaskId := id }
  | .SET_SELECTED_RECORDS ids => { state with selectedRecordIds := ids }
  | .SET_STATUS_FILTER filter => { state with statusFilter := filter }
  | .SET_SHOW_DETAIL b => { state with showDetail := b }
  | .SET_SIDEBAR_COLLAPSED b => { state with sidebarCollapsed := b }
  | .SET_SHOW_BATCH_EDIT_MODAL b => { state with showBatchEditModal := b }
  | .SET_QUEUE_OPEN b => { state with queueOpen := b }
  | .UPDATE_FEISHU_CONFIG payload =>
    { state with feishuConfig := mergeFeishuConfig state.feishuConfig payload }
  | .UPDATE_SETTINGS payload =>
    { state with settings := mergeSettings state.settings payload }
  | .CLEAR_ERROR =>
    { state with status := .idle, errorMessage := none }

/-- The seven `*_START` actions, each of which opens a new operation and
resets `errorMessage` to `null`. -/
def isStartAction : PageAction → Bool
  | .CONNECT_START | .LOAD_TASKS_START | .GENERATE_STORYBOARD_START
  | .GENERATE_SEGMENT_START _ | .MERGE_START | .SYNC_START
  | .UPLOAD_TO_DRIVE_START => true
  | _ => false

/-- The seven `*_FAILURE` actions, each of which records a failure
message. -/
def isFailureAction : PageAction → Bool
  | .CONNECT_FAILURE _ | .LOAD_TASKS_FAILURE _
  | .GENERATE_STORYBOARD_FAILURE _ | .GENERATE_SEGMENT_FAILURE _
  | .MERGE_FAILURE _ | .SYNC_FAILURE _ | .UPLOAD_TO_DRIVE_FAILURE _ => true
  | _ => false

/-- Modelled from the spec: `SegmentResult` (§3) of the backend
orchestration core, whose implementation is not among the frontend
sources. -/
structure SegmentResult where
  status : BatchSegmentStatus
  artifactRef : Option String
  firstFrameRef : Option String
  lastFrameRef : Option String
deriving DecidableEq, Repr

/-- Modelled from the spec: unit lifecycle states (§4.1). -/
inductive UnitStatus where
  | pending
  | scriptGenerating
  | scriptReady
  | generatingSegment (k : Nat)
  | allSegmentsReady
  | assembling
  | completed
  | failed
  | inputMissing
deriving DecidableEq, Repr

/-- Modelled from the spec: the status derivation rule (§4.1) — all
`totalSegments` results `completed` gives `allSegmentsReady`, anything
else gives `scriptReady`. -/
def deriveUnitStatus (results : List SegmentResult) : UnitStatus :=
  if (results.filter (fun r => r.status = .completed)).length = results.length
  then .allSegmentsReady else .scriptReady

/-- Modelled from the spec: `ProductionUnit` (§3), restricted to the
fields `cascadeRedo` reads or writes.  `specs` holds the per-segment
SegmentSpec text content (`none` once cleared), `results` the
index-ordered SegmentResults. -/
structure ProductionUnit where
  id : String
  specs : List (Option String)
  results : List SegmentResult
  status : UnitStatus
  errorMessage : Option String
deriving DecidableEq, Repr

/-- Modelled from the spec: `ArchiveEntry` (§3) — a snapshot of a
SegmentResult taken before it is overwritten. -/
structure ArchiveEntry where
  unitId : String
  segmentIndex : Nat
  snapshot : SegmentResult
deriving DecidableEq, Repr

/-- Modelled from the spec: the state `cascadeRedo` can touch — the
unit's authoritative record plus the append-only archive log. -/
structure CascadeWorld where
  unit : ProductionUnit
  archive : List ArchiveEntry
deriving DecidableEq, Repr

/-- A fresh `pending` SegmentResult with the artifact references
removed (§4.5: "clear those SegmentResults to `pending` (removing
artifact references)"). -/
def clearedSegmentResult : SegmentResult :=
  { status := .pending, artifactRef := none, firstFrameRef := none
  , lastFrameRef := none }

/-- Modelled from the spec: the archival pass of `cascadeRedo` (§4.5)
over the index-annotated results.  `archiveOk i` is the fault-injection
oracle for the ArchiveEntry write of segment `i`.  Returns the entries
actually appended to the (append-only) log, and `some` of the full
entry list when every write in the range succeeded, `none` when a
write failed and the operation must abort. -/
def cascadeArchive (archiveOk : Nat → Bool) (unitId : String)
    (fromIndex : Nat) :
    List (Nat × SegmentResult) → List ArchiveEntry × Option (List ArchiveEntry)
  | [] => ([], some [])
  | (i, r) :: rest =>
    if fromIndex ≤ i ∧ r.status = .completed then
      if archiveOk i then
        let entry : ArchiveEntry := ⟨unitId, i, r⟩
        let res := cascadeArchive archiveOk unitId fromIndex rest
        (entry :: res.1, res.2.map (entry :: ·))
      else ([], none)
    else cascadeArchive archiveOk unitId fromIndex rest

/-- Modelled from the spec: `cascadeRedo(unitId, fromIndex,
alsoResetScript)` (§4.5), with the per-unit lock (§4.2) out of scope —
the operation is specified to run entirely under the unit's lock.
Order of effects follows the spec: archive every currently-`completed`
segment at index ≥ `fromIndex`; only once all those writes succeeded,
clear those SegmentResults to `pending`, optionally clear the
SegmentSpec content in the range, and recompute the unit status; on
any archive-write failure the unit record is never touched.  Returns
the updated world together with `some (archived entries, cleared
indices)` on success and `none` on abort. -/
def cascadeRedo (archiveOk : Nat → Bool) (w : CascadeWorld)
    (fromIndex : Nat) (alsoResetScript : Bool) :
    CascadeWorld × Option (List ArchiveEntry × List Nat) :=
  let u := w.unit
  let arch := cascadeArchive archiveOk u.id fromIndex u.results.enum
  match arch.2 with
  | none => ({ w with archive := w.archive ++ arch.1 }, none)
  | some entries =>
    let cleared := (u.results.enum.filter
      (fun p => fromIndex ≤ p.1 ∧ p.2.status = .completed)).map (·.1)
    let newResults := u.results.enum.map
      (fun p => if fromIndex ≤ p.1 ∧ p.2.status = .completed
        then clearedSegmentResult else p.2)
    let newSpecs := if alsoResetScript then
        u.specs.enum.map (fun p => if fromIndex ≤ p.1 then none else p.2)
      else u.specs
    let u' : ProductionUnit :=
      { u with
        specs := newSpecs
      , results := newResults
      , status := deriveUnitStatus newResults }
    ({ unit := u', archive := w.archive ++ arch.1 }, some (entries, cleared))

/-! ## Characterisation of the next-segment selection -/

/-- The (defaulted) status at position `j` of a segment view list is
`completed`; false out of bounds. -/
def completedAt (L : List SegView) (j : Nat) : Bool :=
  match L.get? j with
  | some s => svCompleted s
  | none => false

/-- Position `j` exists and its (defaulted) status is not `completed`. -/
def notCompletedAt (L : List SegView) (j : Nat) : Bool :=
  match L.get? j with
  | some s => !svCompleted s
  | none => false

/-- The generation dependency of the claim: index 0 needs a truthy
opening image, index `i > 0` needs segment `i - 1` to be `completed`. -/
def depHolds (opening : Bool) (L : List SegView) (i : Nat) : Bool :=
  if i = 0 then opening else completedAt L (i - 1)

/-- Index of the first entry whose defaulted status is not `completed`. -/
def firstNotCompleted : List SegView → Option Nat
  | [] => none
  | s :: rest =>
    if svCompleted s then (firstNotCompleted rest).map (· + 1) else some 0

@[simp] lemma completedAt_nil (j : Nat) : completedAt [] j = false := rfl

@[simp] lemma completedAt_cons_zero (s : SegView) (L : List SegView) :
    completedAt (s :: L) 0 = svCompleted s := rfl

@[simp] lemma completedAt_cons_succ (s : SegView) (L : List SegView) (j : Nat) :
    completedAt (s :: L) (j + 1) = completedAt L j := rfl

@[simp] lemma notCompletedAt_nil (j : Nat) : notCompletedAt [] j = false := rfl

@[simp] lemma notCompletedAt_cons_zero (s : SegView) (L : List SegView) :
    notCompletedAt (s :: L) 0 = !svCompleted s := rfl

@[simp] lemma notCompletedAt_cons_succ (s : SegView) (L : List SegView) (j : Nat) :
    notCompletedAt (s :: L) (j + 1) = notCompletedAt L j := rfl

lemma firstNotCompleted_spec :
    ∀ (L : List SegView) (k : Nat),
      firstNotCompleted L = some k ↔
        ((∀ j, j < k → completedAt L j = true) ∧ notCompletedAt L k = true)
  | [], k => by simp [firstNotCompleted]
  | s :: rest, k => by
    by_cases hs : svCompleted s
    · cases k with
      | zero => simp [firstNotCompleted, hs]
      | succ k' =>
        have ih := firstNotCompleted_spec rest k'
        simp only [firstNotCompleted, hs, if_true, Option.map_eq_some',
          notCompletedAt_cons_succ]
        constructor
        · rintro ⟨a, ha, hak⟩
          obtain rfl : a = k' := by omega
          have h := ih.mp ha
          refine ⟨?_, h.2⟩
          intro j hj
          cases j with
          | zero => simpa using hs
          | succ j' =>
            exact completedAt_cons_succ s rest j' ▸ h.1 j' (by omega)
        · rintro ⟨h1, h2⟩
          exact ⟨k', ih.mpr ⟨fun j hj => h1 (j + 1) (by omega), h2⟩, rfl⟩
    · simp only [firstNotCompleted, hs, if_false]
      constructor
      · rintro h
        cases h
        simp [hs]
      · rintro ⟨h1, h2⟩
        cases k with
        | zero => rfl
        | succ k' =>
          have := h1 0 (by omega)
          simp [hs] at this

lemma nextSegLoop_eq (opening : Bool) :
    ∀ (segs : List SegView) (i : Nat) (p : SegView),
      svCompleted p = true → i ≠ 0 →
      nextSegLoop opening i (some p) segs = (firstNotCompleted segs).map (i + ·)
  | [], i, p => by intro _ _; simp [nextSegLoop, firstNotCompleted]
  | s :: rest, i, p => by
    intro hp hi
    by_cases hs : svCompleted s
    · have ih := nextSegLoop_eq opening rest (i + 1) s hs (by omega)
      simp only [nextSegLoop, hs, not_true, if_false, ih, firstNotCompleted,
        if_true]
      cases h : firstNotCompleted rest <;> simp [h]
      omega
    · simp [nextSegLoop, hs, hi, hp, firstNotCompleted]

lemma nextSegLoop_base_spec (opening : Bool) (L : List SegView) (i : Nat) :
    nextSegLoop opening 0 none L = some i ↔
      ((∀ j, j < i → completedAt L j = true) ∧ notCompletedAt L i = true ∧
        depHolds opening L i = true) := by
  cases L with
  | nil => simp [nextSegLoop]
  | cons s rest =>
    by_cases hs : svCompleted s
    · have hstep : nextSegLoop opening 0 none (s :: rest) =
          nextSegLoop opening 1 (some s) rest := by
        simp [nextSegLoop, hs]
      rw [hstep, nextSegLoop_eq opening rest 1 s hs one_ne_zero]
      constructor
      · rintro h
        rw [Option.map_eq_some'] at h
        obtain ⟨k, hk, rfl⟩ := h
        have h := (firstNotCompleted_spec rest k).mp hk
        refine ⟨?_, ?_, ?_⟩
        · intro j hj
          cases j with
          | zero => simpa using hs
          | succ j' => simpa using h.1 j' (by omega)
        · have : 1 + k = k + 1 := by omega
          rw [this, notCompletedAt_cons_succ]
          exact h.2
        · have h1 : 1 + k ≠ 0 := by omega
          simp only [depHolds, h1, if_false]
          have : 1 + k - 1 = k := by omega
          rw [this]
          cases k with
          | zero => simpa using hs
          | succ k' => simpa using h.1 k' (by omega)
      · rintro ⟨h1, h2, _⟩
        cases i with
        | zero => simp [hs] at h2
        | succ i' =>
          have hf : firstNotCompleted rest = some i' := by
            refine (firstNotCompleted_spec rest i').mpr ⟨?_, ?_⟩
            · intro j hj
              simpa using h1 (j + 1) (by omega)
            · simpa using h2
          rw [hf, Option.map_eq_some']
          exact ⟨i', rfl, by omega⟩
    · have hstep : nextSegLoop opening 0 none (s :: rest) =
          (if opening then some 0 else none) := by
        simp [nextSegLoop, hs]
      rw [hstep]
      by_cases hop : opening
      · subst hop
        simp only [if_true]
        constructor
        · rintro h
          cases h
          exact ⟨by omega, by simp [hs], by simp [depHolds]⟩
        · rintro ⟨h1, h2, _⟩
          cases i with
          | zero => rfl
          | succ i' =>
            have := h1 0 (by omega)
            simp [hs] at this
      · simp only [Bool.not_eq_true] at hop
        subst hop
        simp only [Bool.false_eq_true, if_false]
        constructor
        · rintro h
          cases h
        · rintro ⟨h1, _, h3⟩
          cases i with
          | zero => simp [depHolds] at h3
          | succ i' =>
            have := h1 0 (by omega)
            simp [hs] at this

/-- Under the claim's side conditions, `getNextSegmentIndex` is the
selection loop over the effective segment list. -/
lemma getNextSegmentIndex_eq_loop (task : BatchTask)
    (hsb : sjTruthy task.storyboardJson = true)
    (hgen : statusIsGeneratingSegment task.status = false)
    (hmerge : task.status ≠ .merging)
    (hsg : task.status ≠ .storyboard_generating)
    (hcomp : task.status ≠ .completed) :
    getNextSegmentIndex task =
      nextSegLoop (strTruthy task.openingImageUrl) 0 none (effSegments task) := by
  unfold getNextSegmentIndex
  simp only [hsb, hgen, hmerge, hsg, hcomp]
  simp only [Bool.false_eq_true, not_false_eq_true, if_true, decide_False,
    Bool.false_or, Bool.or_self, if_false]
  cases h : effSegments task with
  | nil => simp [h, nextSegLoop]
  | cons s rest => simp [h, nextSegLoop]

/-- A Scenario-A task: three segments, segments 0 and 1 `completed`
(segment 1 with `lastFrameUrl` `"f1.jpg"`), segment 2 `pending`, a
three-element storyboard JSON and an opening image present. -/
def taskA : BatchTask :=
  { id := "recA"
  , projectId := some "projA"
  , openingImageUrl := some "opening.jpg"
  , segmentCount := 3
  , storyboardJson := .parsed (.jarr
      [ .jobj [("id", .jstr "sb-0"), ("prompt", .jstr "p0")]
      , .jobj [("id", .jstr "sb-1"), ("prompt", .jstr "p1"),
          ("lastFrameUrl", .jstr "sb1-last.jpg")]
      , .jobj [("id", .jstr "sb-2"), ("prompt", .jstr "p2")] ])
  , segments :=
      [ { videoUrl := some "v0.mp4", lastFrameUrl := some "f0.jpg"
        , status := .completed }
      , { videoUrl := some "v1.mp4", lastFrameUrl := some "f1.jpg"
        , status := .completed }
      , { videoUrl := none, lastFrameUrl := none, status := .pending } ]
  , status := .storyboard_ready
  , errorMessage := none }

/-- C1.  Next-segment auto-selection: for every task with a truthy
storyboard whose status is neither transient
(`generating_segment_*`/`merging`/`storyboard_generating`) nor
`completed`, `getNextSegmentIndex` returns `some i` exactly when `i`
is the first non-`completed` position of the effective segment list
and its dependency holds (index 0 needs the opening image, index
`i > 0` needs segment `i - 1` `completed`); otherwise it returns
`none`.  In particular a segment `i > 0` is selected only when segment
`i - 1` is `completed`. -/
theorem claim_C1 (task : BatchTask)
    (hsb : sjTruthy task.storyboardJson = true)
    (hgen : statusIsGeneratingSegment task.status = false)
    (hmerge : task.status ≠ .merging)
    (hsg : task.status ≠ .storyboard_generating)
    (hcomp : task.status ≠ .completed) :
    (∀ i : Nat, getNextSegmentIndex task = some i ↔
      ((∀ j, j < i → completedAt (effSegments task) j = true) ∧
        notCompletedAt (effSegments task) i = true ∧
        depHolds (strTruthy task.openingImageUrl) (effSegments task) i = true)) ∧
    (∀ i : Nat, 0 < i → getNextSegmentIndex task = some i →
      completedAt (effSegments task) (i - 1) = true) := by
  have hx := getNextSegmentIndex_eq_loop task hsb hgen hmerge hsg hcomp
  constructor
  · intro i
    rw [hx]
    exact nextSegLoop_base_spec _ _ i
  · intro i hi hsome
    rw [hx] at hsome
    have h := ((nextSegLoop_base_spec _ _ i).mp hsome).2.2
    have hne : ¬ i = 0 := by omega
    simpa only [depHolds, hne, if_false] using h

/-- Witness for C1 at the Scenario-A task: segment 2 is selected. -/
theorem claim_C1_witness : getNextSegmentIndex taskA = some 2 := by
  have h := claim_C1 taskA (by decide) (by decide) (by decide) (by decide)
    (by decide)
  exact (h.1 2).mpr ⟨by decide, by decide, by decide⟩

/-- C3.  A task whose status is a transient in-flight state
(`storyboard_generating`, `merging`, or any `generating_segment_*`)
never has a next segment selected, and contributes no pending-segment
record to a batch. -/
theorem claim_C3 (task : BatchTask)
    (h : statusIsGeneratingSegment task.status = true ∨ task.status = .merging ∨
      task.status = .storyboard_generating) :
    getNextSegmentIndex task = none ∧
      ∀ idx : Nat, pendingInfoOfTask task idx = none := by
  have hnone : getNextSegmentIndex task = none := by
    rcases h with h | h | h
    · simp [getNextSegmentIndex, h]
    · simp [getNextSegmentIndex, h]
    · simp [getNextSegmentIndex, h]
  refine ⟨hnone, fun idx => ?_⟩
  simp [pendingInfoOfTask, hnone]

/-- Witness for C3 at a concrete mid-merge task. -/
theorem claim_C3_witness :
    getNextSegmentIndex { taskA with status := .merging } = none :=
  (claim_C3 { taskA with status := .merging } (Or.inr (Or.inl rfl))).1

/-- C10.  Storyboard parsing is total: `parseStoryboardSegments` is a
total function into lists (it can never throw — the `try`/`catch`
totality is captured by the `StoryboardJson` embedding), and it
returns the embedded array for `{storyboards: [...]}`, the embedded
array for `{segments: [...]}` when `storyboards` is not an array, the
elements of a bare JSON array, and `[]` for every other input
(absent/null/empty input, malformed JSON, and any other JSON value). -/
theorem claim_C10 :
    (parseStoryboardSegments .missing = [] ∧
      parseStoryboardSegments .malformed = []) ∧
    (∀ (fields : List (String × JValue)) (a : List JValue),
      jlookup fields "storyboards" = some (.jarr a) →
      parseStoryboardSegments (.parsed (.jobj fields)) = a) ∧
    (∀ (fields : List (String × JValue)) (a : List JValue),
      (∀ b, jlookup fields "storyboards" ≠ some (.jarr b)) →
      jlookup fields "segments" = some (.jarr a) →
      parseStoryboardSegments (.parsed (.jobj fields)) = a) ∧
    (∀ a : List JValue, parseStoryboardSegments (.parsed (.jarr a)) = a) ∧
    (∀ v : JValue,
      (∀ b, jget v "storyboards" ≠ some (.jarr b)) →
      (∀ b, jget v "segments" ≠ some (.jarr b)) →
      (∀ a, v ≠ .jarr a) →
      parseStoryboardSegments (.parsed v) = []) := by
  have hnone : ∀ o : Option JValue,
      (∀ b, o ≠ some (.jarr b)) → asArray o = none := by
    intro o h
    match o with
    | none => rfl
    | some .jnull => rfl
    | some (.jbool b) => rfl
    | some (.jnum n) => rfl
    | some (.jstr s) => rfl
    | some (.jarr a) => exact absurd rfl (h a)
    | some (.jobj f) => rfl
  refine ⟨⟨rfl, rfl⟩, ?_, ?_, ?_, ?_⟩
  · intro fields a h
    have : asArray (jget (.jobj fields) "storyboards") = some a := by
      simp [jget, h, asArray]
    simp [parseStoryboardSegments, this]
  · intro fields a h1 h2
    have hx : asArray (jget (.jobj fields) "storyboards") = none :=
      hnone _ (by simpa [jget] using h1)
    have hy : asArray (jget (.jobj fields) "segments") = some a := by
      simp [jget, h2, asArray]
    simp [parseStoryboardSegments, hx, hy]
  · intro a
    rfl
  · intro v h1 h2 h3
    have hx : asArray (jget v "storyboards") = none := hnone _ h1
    have hy : asArray (jget v "segments") = none := hnone _ h2
    have hv : (match v with | .jarr a => a | _ => ([] : List JValue)) = [] := by
      match v with
      | .jnull | .jbool _ | .jnum _ | .jstr _ | .jobj _ => rfl
      | .jarr a => exact absurd rfl (h3 a)
    simp [parseStoryboardSegments, hx, hy, hv]

/-- Witness for C10: an object whose `segments` field holds a
one-element array (and with no `storyboards` key) parses to that
array. -/
theorem claim_C10_witness :
    parseStoryboardSegments (.parsed (.jobj [("segments", .jarr [.jnum 1])]))
      = [.jnum 1] :=
  claim_C10.2.2.1 [("segments", .jarr [.jnum 1])] [.jnum 1]
    (fun _ h => Option.noConfusion h) rfl

/-! ## Input-frame determination -/

lemma jsOrOpt_truthy (a b : Option JValue) (h : jTruthyOpt a = true) :
    jsOrOpt a b = a := by
  simp [jsOrOpt, h]

lemma jsOrOpt_falsy (a b : Option JValue) (h : jTruthyOpt a = false) :
    jsOrOpt a b = b := by
  simp [jsOrOpt, h]

lemma pendingInfoOfTask_some_eq (task : BatchTask) (idx nextSeg : Nat)
    (segmentData : JValue)
    (hn : getNextSegmentIndex task = some nextSeg)
    (hsd : (parseStoryboardSegments task.storyboardJson)[nextSeg]? =
      some segmentData) :
    pendingInfoOfTask task idx = some
      { taskId := task.id
      , taskIndex := idx
      , projectId := (strOr task.projectId (some "")).getD ""
      , segmentIndex := nextSeg
      , segment := if jTruthy segmentData then
          some (normSegment segmentData nextSeg) else none
      , inputFrameUrl :=
          if nextSeg = 0 then task.openingImageUrl.map .jstr
          else
            jsOrOpt (jsOrOpt
              (((task.segments.get? (nextSeg - 1)).bind (·.lastFrameUrl)).map .jstr)
              (((parseStoryboardSegments task.storyboardJson).get?
                  (nextSeg - 1)).bind (jget · "lastFrameUrl")))
              (((parseStoryboardSegments task.storyboardJson).get?
                  (nextSeg - 1)).bind (jget · "last_frame_url"))
      , inputFrameLabel :=
          if nextSeg = 0 then "Opening Image"
          else "段" ++ toString (nextSeg - 1) ++ " Last Frame" } := by
  simp [pendingInfoOfTask, hn, hsd]

/-- A storyboard-driven task (`segments` empty): storyboard segment 0
`completed` with a camelCase `lastFrameUrl`, segment 1 next. -/
def taskB : BatchTask :=
  { id := "recB2"
  , projectId := some "projB"
  , openingImageUrl := some "openingB.jpg"
  , segmentCount := 2
  , storyboardJson := .parsed (.jarr
      [ .jobj [("status", .jstr "completed"),
          ("lastFrameUrl", .jstr "sb0-last.jpg")]
      , .jobj [("prompt", .jstr "p1")] ])
  , segments := []
  , status := .storyboard_ready
  , errorMessage := none }

/-- A storyboard-driven task whose predecessor frame is recorded only
under the snake_case `last_frame_url` key. -/
def taskC : BatchTask :=
  { id := "recC"
  , projectId := some "projC"
  , openingImageUrl := some "openingC.jpg"
  , segmentCount := 2
  , storyboardJson := .parsed (.jarr
      [ .jobj [("status", .jstr "completed"),
          ("last_frame_url", .jstr "sb0-snake.jpg")]
      , .jobj [("prompt", .jstr "p1")] ])
  , segments := []
  , status := .storyboard_ready
  , errorMessage := none }

/-- C2.  Input-frame determination: every pending-segment record built
by `calculatePendingSegments` carries the selected next index; its
input frame is the task's opening image when that index is 0, and
otherwise — unconditionally, by an exhaustive and mutually exclusive
case split — a `lastFrameRef` field of the predecessor segment: the
authoritative `task.segments` entry's `lastFrameUrl` when that is
present and truthy, else the predecessor storyboard record's
`lastFrameUrl` when truthy, else that record's `last_frame_url` taken
as is.  Concretely: Scenario A (segments 0 and 1 `completed`, opening
image present) yields index 2 with input frame equal to segment 1's
`lastFrameUrl`, and the two storyboard-fallback branches are likewise
exercised on concrete tasks. -/
theorem claim_C2 :
    (∀ (task : BatchTask) (idx : Nat) (entry : PendingSegmentInfo),
      pendingInfoOfTask task idx = some entry →
      getNextSegmentIndex task = some entry.segmentIndex ∧
      (entry.segmentIndex = 0 →
        entry.inputFrameUrl = task.openingImageUrl.map .jstr) ∧
      (0 < entry.segmentIndex →
        ∃ sb : JValue,
          (parseStoryboardSegments
            task.storyboardJson)[entry.segmentIndex - 1]? = some sb ∧
          ((∃ s : BatchSegment,
              task.segments[entry.segmentIndex - 1]? = some s ∧
              strTruthy s.lastFrameUrl = true ∧
              entry.inputFrameUrl = s.lastFrameUrl.map .jstr) ∨
            ((∀ s : BatchSegment,
                task.segments[entry.segmentIndex - 1]? = some s →
                strTruthy s.lastFrameUrl = false) ∧
              jTruthyOpt (jget sb "lastFrameUrl") = true ∧
              entry.inputFrameUrl = jget sb "lastFrameUrl") ∨
            ((∀ s : BatchSegment,
                task.segments[entry.segmentIndex - 1]? = some s →
                strTruthy s.lastFrameUrl = false) ∧
              jTruthyOpt (jget sb "lastFrameUrl") = false ∧
              entry.inputFrameUrl = jget sb "last_frame_url")))) ∧
    ((calculatePendingSegments [taskA] []).map
        (fun e => (e.taskId, e.segmentIndex, e.inputFrameUrl)) =
      [("recA", 2, some (.jstr "f1.jpg"))]) ∧
    ((calculatePendingSegments [taskB] []).map
        (fun e => (e.taskId, e.segmentIndex, e.inputFrameUrl)) =
      [("recB2", 1, some (.jstr "sb0-last.jpg"))]) ∧
    ((calculatePendingSegments [taskC] []).map
        (fun e => (e.taskId, e.segmentIndex, e.inputFrameUrl)) =
      [("recC", 1, some (.jstr "sb0-snake.jpg"))]) := by
  refine ⟨?_, rfl, rfl, rfl⟩
  intro task idx entry heq
  cases hn : getNextSegmentIndex task with
  | none => simp [pendingInfoOfTask, hn] at heq
  | some nextSeg =>
    cases hsd : (parseStoryboardSegments task.storyboardJson)[nextSeg]? with
    | none => simp [pendingInfoOfTask, hn, hsd] at heq
    | some segmentData =>
      rw [pendingInfoOfTask_some_eq task idx nextSeg segmentData hn hsd] at heq
      obtain rfl := (Option.some.inj heq).symm
      refine ⟨rfl, ?_, ?_⟩
      · intro h0
        simp only at h0
        simp [h0]
      · intro hpos
        simp only at hpos ⊢
        have hne : ¬ nextSeg = 0 := by omega
        rw [if_neg hne]
        have hlen :
            nextSeg < (parseStoryboardSegments task.storyboardJson).length :=
          (List.getElem?_eq_some.mp hsd).1
        have hlt :
            nextSeg - 1 < (parseStoryboardSegments task.storyboardJson).length := by
          omega
        refine ⟨(parseStoryboardSegments task.storyboardJson)[nextSeg - 1],
          List.getElem?_eq_getElem hlt, ?_⟩
        have hsb :
            (parseStoryboardSegments task.storyboardJson).get? (nextSeg - 1) =
              some (parseStoryboardSegments task.storyboardJson)[nextSeg - 1] := by
          rw [List.get?_eq_getElem?]
          exact List.getElem?_eq_getElem hlt
        by_cases hA : jTruthyOpt
            (((task.segments.get? (nextSeg - 1)).bind (·.lastFrameUrl)).map .jstr)
        · left
          cases hts : task.segments.get? (nextSeg - 1) with
          | none => rw [hts] at hA; simp [jTruthyOpt] at hA
          | some s =>
            cases hl : s.lastFrameUrl with
            | none =>
              simp only [hts, Option.some_bind, hl] at hA
              simp [jTruthyOpt] at hA
            | some l =>
              have hlne : l ≠ "" := by
                simp only [hts, Option.some_bind, hl] at hA
                simpa [jTruthyOpt, jTruthy] using hA
              refine ⟨s, by rw [← List.get?_eq_getElem?]; exact hts,
                by simp [strTruthy, hl, hlne], ?_⟩
              have h1 : jTruthyOpt (some (JValue.jstr l)) = true := by
                simp [jTruthyOpt, jTruthy, hlne]
              simp only [hts, Option.some_bind, hl, Option.map_some']
              rw [jsOrOpt_truthy _ _ h1, jsOrOpt_truthy _ _ h1]
        · have hAf : jTruthyOpt
              (((task.segments.get? (nextSeg - 1)).bind (·.lastFrameUrl)).map .jstr)
              = false := by
            simpa using hA
          have hforall : ∀ s : BatchSegment,
              task.segments[nextSeg - 1]? = some s →
              strTruthy s.lastFrameUrl = false := by
            intro s hs
            cases hl : s.lastFrameUrl with
            | none => simp [strTruthy]
            | some l =>
              by_contra hcon
              have hlne : l ≠ "" := by
                intro hleq
                exact hcon (by simp [strTruthy, hleq])
              apply hA
              have hts : task.segments.get? (nextSeg - 1) = some s := by
                rw [List.get?_eq_getElem?]
                exact hs
              simp only [hts, Option.some_bind, hl]
              simp [jTruthyOpt, jTruthy, hlne]
          right
          rw [jsOrOpt_falsy _ _ hAf, hsb]
          simp only [Option.some_bind]
          by_cases hB : jTruthyOpt
              (jget (parseStoryboardSegments task.storyboardJson)[nextSeg - 1]
                "lastFrameUrl")
          · left
            exact ⟨hforall, hB, jsOrOpt_truthy _ _ hB⟩
          · right
            have hBf : jTruthyOpt
                (jget (parseStoryboardSegments task.storyboardJson)[nextSeg - 1]
                  "lastFrameUrl") = false := by
              simpa using hB
            exact ⟨hforall, hBf, jsOrOpt_falsy _ _ hBf⟩

/-- Default record used to name the unique pending segment of the
Scenario-A task. -/
def pendingInfoDefault : PendingSegmentInfo :=
  { taskId := "", taskIndex := 0, projectId := "", segmentIndex := 0
  , segment := none, inputFrameUrl := none, inputFrameLabel := "" }

/-- The pending-segment record of the Scenario-A task. -/
def entryA : PendingSegmentInfo :=
  (pendingInfoOfTask taskA 0).getD pendingInfoDefault

/-- Witness for C2: the Scenario-A task's unique pending record is the
one selected, at index 2. -/
theorem claim_C2_witness :
    getNextSegmentIndex taskA = some entryA.segmentIndex :=
  (claim_C2.1 taskA 0 entryA rfl).1

/-! ## Stage filters and batch submissions -/

/-- C6.  Assembly eligibility: the merge filter keeps exactly the tasks
with status `all_segments_ready`, and a batch merge submission (when
one happens at all) consists exactly of the ids of the
`all_segments_ready` tasks among the processed ones. -/
theorem claim_C6 (tasks : List BatchTask) :
    (∀ t : BatchTask, t ∈ filterTasksForMerge tasks ↔
      (t ∈ tasks ∧ t.status = .all_segments_ready)) ∧
    (∀ (sel ids : List String), mergeSubmission tasks sel = some ids →
      ids = (filterTasksForMerge (tasksToProcess tasks sel)).map (·.id) ∧
      ∀ id ∈ ids, ∃ t : BatchTask, t ∈ tasksToProcess tasks sel ∧
        t.id = id ∧ t.status = .all_segments_ready) := by
  constructor
  · intro t
    simp [filterTasksForMerge, List.mem_filter]
  · intro sel ids h
    unfold mergeSubmission at h
    split at h
    · exact absurd h (by simp)
    · split at h
      · exact absurd h (by simp)
      · obtain rfl := (Option.some.inj h).symm
        refine ⟨rfl, ?_⟩
        intro id hid
        rw [List.mem_map] at hid
        obtain ⟨t, ht, rfl⟩ := hid
        have hm := List.mem_filter.mp ht
        exact ⟨t, hm.1, rfl, by simpa using hm.2⟩

/-- A second task, `all_segments_ready`. -/
def taskReadyB : BatchTask :=
  { taskA with id := "recB", status := .all_segments_ready }

/-- Witness for C6: a two-task list where only the second task is
`all_segments_ready` submits exactly that task's id. -/
theorem claim_C6_witness :
    taskA ∉ filterTasksForMerge [taskA, taskReadyB] ∧
    (∀ id ∈ ["recB"], ∃ t : BatchTask,
      t ∈ tasksToProcess [taskA, taskReadyB] [] ∧
      t.id = id ∧ t.status = .all_segments_ready) := by
  have h := claim_C6 [taskA, taskReadyB]
  constructor
  · intro hmem
    exact absurd ((h.1 taskA).mp hmem).2 (by decide)
  · exact (h.2 [] ["recB"] rfl).2

/-- C7.  Script-stage prerequisite: the storyboard filter keeps exactly
the tasks with a truthy opening image and status `pending` or
`storyboard_ready`, and a storyboard submission consists only of ids
of such tasks — a unit without an opening image is never submitted. -/
theorem claim_C7 (tasks : List BatchTask) :
    (∀ t : BatchTask, t ∈ filterTasksForStoryboard tasks ↔
      (t ∈ tasks ∧ strTruthy t.openingImageUrl = true ∧
        (t.status = .pending ∨ t.status = .storyboard_ready))) ∧
    (∀ (sel ids : List String), storyboardSubmission tasks sel = some ids →
      ids = (filterTasksForStoryboard (tasksToProcess tasks sel)).map (·.id) ∧
      ∀ id ∈ ids, ∃ t : BatchTask, t ∈ tasksToProcess tasks sel ∧
        t.id = id ∧ strTruthy t.openingImageUrl = true ∧
        (t.status = .pending ∨ t.status = .storyboard_ready)) := by
  constructor
  · intro t
    simp [filterTasksForStoryboard, List.mem_filter, and_assoc]
  · intro sel ids h
    unfold storyboardSubmission at h
    split at h
    · exact absurd h (by simp)
    · split at h
      · exact absurd h (by simp)
      · obtain rfl := (Option.some.inj h).symm
        refine ⟨rfl, ?_⟩
        intro id hid
        rw [List.mem_map] at hid
        obtain ⟨t, ht, rfl⟩ := hid
        have hm := List.mem_filter.mp ht
        refine ⟨t, hm.1, rfl, ?_⟩
        simpa using hm.2

/-- A `pending` task with no opening image. -/
def taskNoImage : BatchTask :=
  { taskA with openingImageUrl := none, status := .pending }

/-- Witness for C7: a task with no opening image is not kept by the
storyboard filter even in `pending` status. -/
theorem claim_C7_witness :
    taskNoImage ∉ filterTasksForStoryboard [taskNoImage] := by
  intro hmem
  have h := ((claim_C7 [taskNoImage]).1 taskNoImage).mp hmem
  exact absurd h.2.1 (by decide)

/-- Applying `tasksToProcess` with an empty selection is the full task list. -/
lemma tasksToProcess_nil (tasks : List BatchTask) :
    tasksToProcess tasks [] = tasks := rfl

/-- Applying `tasksToProcess` with the selection of every id is the full task
list as well. -/
lemma tasksToProcess_all (tasks : List BatchTask) :
    tasksToProcess tasks (tasks.map (·.id)) = tasks := by
  cases htasks : tasks with
  | nil => rfl
  | cons t rest =>
    rw [← htasks]
    unfold tasksToProcess
    rw [if_pos (by simp [htasks])]
    refine List.filter_eq_self.mpr ?_
    intro a ha
    simp only [List.elem_iff]
    exact List.mem_map_of_mem (·.id) ha

/-- C9.  Empty selection means select-all: with an empty selection the
batch helpers and handler submissions behave exactly as if every task
id had been selected (they process the full list); with a non-empty
selection the processed list consists exactly of the tasks whose id is
selected. -/
theorem claim_C9 (tasks : List BatchTask) (sel : List String) :
    (sel = [] →
      tasksToProcess tasks sel = tasks ∧
      calculatePendingSegments tasks sel =
        calculatePendingSegments tasks (tasks.map (·.id)) ∧
      (∀ i, groupTasksBySegmentIndex tasks sel i =
        groupTasksBySegmentIndex tasks (tasks.map (·.id)) i) ∧
      storyboardSubmission tasks sel =
        storyboardSubmission tasks (tasks.map (·.id)) ∧
      mergeSubmission tasks sel = mergeSubmission tasks (tasks.map (·.id))) ∧
    (sel ≠ [] → ∀ t : BatchTask,
      t ∈ tasksToProcess tasks sel ↔ (t ∈ tasks ∧ t.id ∈ sel)) := by
  constructor
  · rintro rfl
    refine ⟨tasksToProcess_nil tasks, ?_, ?_, ?_, ?_⟩
    · unfold calculatePendingSegments
      rw [tasksToProcess_nil, tasksToProcess_all]
    · intro i
      unfold groupTasksBySegmentIndex
      rw [tasksToProcess_nil, tasksToProcess_all]
    · unfold storyboardSubmission
      rw [tasksToProcess_nil, tasksToProcess_all]
    · unfold mergeSubmission
      rw [tasksToProcess_nil, tasksToProcess_all]
  · intro hne t
    unfold tasksToProcess
    rw [if_pos (by cases sel with | nil => exact absurd rfl hne | cons a l => simp)]
    rw [List.mem_filter]
    simp [List.elem_iff]

/-- Witness for C9: with an empty selection the two-task list is
processed whole, and with selection `["recA"]` exactly the task with
that id is processed. -/
theorem claim_C9_witness :
    tasksToProcess [taskA] [] = [taskA] ∧
    (taskA ∈ tasksToProcess [taskA] ["recA"] ↔
      (taskA ∈ [taskA] ∧ taskA.id ∈ ["recA"])) :=
  ⟨(claim_C9 [taskA] []).1 rfl |>.1,
    (claim_C9 [taskA] ["recA"]).2 (by simp) taskA⟩

/-! ## Batch fan-out aggregation -/

/-- The group of a segment index: the taskIds of the edits carrying
that index, in edit order. -/
def editGroup (edits : List BatchEdit) (i : Nat) : List String :=
  (edits.filter (fun e => e.segmentIndex = i)).map (·.taskId)

/-- Per-group success contribution: 0 for a rejected call. -/
def genSucc : GenOutcome → Nat
  | .thrown => 0
  | .ok s _ => s

/-- Per-group failure contribution: the whole group size for a rejected
call. -/
def genFail : GenOutcome → Nat → Nat
  | .thrown, n => n
  | .ok _ f, _ => f

lemma pushGroup_foldl (edits : List BatchEdit) (g : Nat → List String)
    (i : Nat) :
    (edits.foldl (fun g e => pushGroup g e.segmentIndex e.taskId) g) i =
      g i ++ editGroup edits i := by
  induction edits generalizing g with
  | nil => simp [editGroup]
  | cons e rest ih =>
    rw [List.foldl_cons, ih]
    by_cases he : e.segmentIndex = i
    · simp [pushGroup, editGroup, he, List.filter_cons]
    · have hne : ¬ i = e.segmentIndex := fun h => he h.symm
      simp [pushGroup, editGroup, hne, he, List.filter_cons]

lemma buildGroups_eq (edits : List BatchEdit) :
    buildGroups edits = editGroup edits := by
  funext i
  simpa [buildGroups, emptyGroups] using pushGroup_foldl edits emptyGroups i

lemma runSegmentGroups_calls (gen : Nat → List String → GenOutcome)
    (groups : Nat → List String) :
    ∀ idxs : List Nat,
      (runSegmentGroups gen groups idxs).2.2 =
        idxs.map (fun i => (i, groups i))
  | [] => rfl
  | i :: rest => by
    have ih := runSegmentGroups_calls gen groups rest
    simp only [runSegmentGroups]
    cases h : gen i (groups i) <;> simp [h, ih]

lemma runSegmentGroups_succ (gen : Nat → List String → GenOutcome)
    (groups : Nat → List String) :
    ∀ idxs : List Nat,
      (runSegmentGroups gen groups idxs).1 =
        (idxs.map (fun i => genSucc (gen i (groups i)))).sum
  | [] => rfl
  | i :: rest => by
    have ih := runSegmentGroups_succ gen groups rest
    simp only [runSegmentGroups]
    cases h : gen i (groups i) <;> simp [h, ih, genSucc]

lemma runSegmentGroups_fail (gen : Nat → List String → GenOutcome)
    (groups : Nat → List String) :
    ∀ idxs : List Nat,
      (runSegmentGroups gen groups idxs).2.1 =
        (idxs.map (fun i => genFail (gen i (groups i)) (groups i).length)).sum
  | [] => rfl
  | i :: rest => by
    have ih := runSegmentGroups_fail gen groups rest
    simp only [runSegmentGroups]
    cases h : gen i (groups i) <;> simp [h, ih, genFail]

/-- C5.  Batch fan-out aggregation and sibling isolation: with the save
step succeeding, the confirm handler issues exactly one generation
call per distinct segment index (ascending, with exactly that index's
grouped taskIds) — a rejected call never prevents the later groups'
calls; the returned successCount and failedCount are the sums of the
per-group contributions, a rejected group contributing its whole unit
count to failedCount; and overall success is reported exactly when
failedCount is 0. -/
theorem claim_C5 (gen : Nat → List String → GenOutcome)
    (edits : List BatchEdit) :
    ((handleBatchEditConfirm gen none edits).2 =
      (sortedEditIndices edits).map (fun i => (i, editGroup edits i))) ∧
    ((handleBatchEditConfirm gen none edits).1.successCount =
      ((sortedEditIndices edits).map
        (fun i => genSucc (gen i (editGroup edits i)))).sum) ∧
    ((handleBatchEditConfirm gen none edits).1.failedCount =
      ((sortedEditIndices edits).map
        (fun i => genFail (gen i (editGroup edits i))
          (editGroup edits i).length)).sum) ∧
    ((handleBatchEditConfirm gen none edits).1.success =
      decide ((handleBatchEditConfirm gen none edits).1.failedCount = 0)) := by
  have hg := buildGroups_eq edits
  simp only [handleBatchEditConfirm, hg]
  exact ⟨runSegmentGroups_calls gen (editGroup edits) (sortedEditIndices edits),
    runSegmentGroups_succ gen (editGroup edits) (sortedEditIndices edits),
    runSegmentGroups_fail gen (editGroup edits) (sortedEditIndices edits),
    trivial⟩

/-! ## Error-message lifecycle in the page reducer -/

/-- C8.  Error-message lifecycle: every `*_FAILURE` action sets the
page status to `error` and `errorMessage` to its payload (touching
nothing else); a non-null `errorMessage` is set back to null only by a
`*_START` action or by `CLEAR_ERROR`; and every action other than the
starts, the failures and `CLEAR_ERROR` leaves `errorMessage` exactly
as it was. -/
theorem claim_C8 (s : PageState) :
    (∀ m : String,
      pageReducer s (.CONNECT_FAILURE m) =
        { s with status := .error, errorMessage := some m } ∧
      pageReducer s (.LOAD_TASKS_FAILURE m) =
        { s with status := .error, errorMessage := some m } ∧
      pageReducer s (.GENERATE_STORYBOARD_FAILURE m) =
        { s with status := .error, errorMessage := some m } ∧
      pageReducer s (.GENERATE_SEGMENT_FAILURE m) =
        { s with status := .error, errorMessage := some m } ∧
      pageReducer s (.MERGE_FAILURE m) =
        { s with status := .error, errorMessage := some m } ∧
      pageReducer s (.SYNC_FAILURE m) =
        { s with status := .error, errorMessage := some m } ∧
      pageReducer s (.UPLOAD_TO_DRIVE_FAILURE m) =
        { s with status := .error, errorMessage := some m }) ∧
    (∀ a : PageAction, s.errorMessage ≠ none →
      (pageReducer s a).errorMessage = none →
      isStartAction a = true ∨ a = .CLEAR_ERROR) ∧
    (∀ a : PageAction, isStartAction a = false → isFailureAction a = false →
      a ≠ .CLEAR_ERROR → (pageReducer s a).errorMessage = s.errorMessage) := by
  refine ⟨fun m => ⟨rfl, rfl, rfl, rfl, rfl, rfl, rfl⟩, ?_, ?_⟩
  · intro a h1 h2
    cases a <;>
      first
        | exact Or.inl rfl
        | exact Or.inr rfl
        | exact absurd h2 h1
        | exact Option.noConfusion h2
  · intro a hs hf hc
    cases a <;>
      first
        | rfl
        | exact Bool.noConfusion hs
        | exact Bool.noConfusion hf
        | exact absurd rfl hc

/-- A page state carrying an error message. -/
def stateW : PageState :=
  { status := .error
  , errorMessage := some "boom"
  , feishuConfig :=
      { appId := "", appSecret := "", appToken := none
      , tenantAccessToken := none, tableId := "", connected := false
      , tableName := none, recordCount := none, driveFolderToken := none }
  , tasks := []
  , selectedTaskId := none
  , selectedRecordIds := []
  , statusFilter := none
  , showDetail := true
  , sidebarCollapsed := false
  , showBatchEditModal := false
  , queueOpen := false
  , currentSegmentIndex := 0
  , settings :=
      { storyboardConcurrency := 10
      , videoConcurrency := 5
      , writebackBatchSize := 500 } }

/-- Witness for C8: a pure-UI action retains the stored message, and
the clearing observed under `LOAD_TASKS_START` is attributed to a
start action. -/
theorem claim_C8_witness :
    ((pageReducer stateW (.SELECT_TASK none)).errorMessage =
      stateW.errorMessage) ∧
    (isStartAction .LOAD_TASKS_START = true ∨
      (.LOAD_TASKS_START : PageAction) = .CLEAR_ERROR) := by
  constructor
  · exact (claim_C8 stateW).2.2 (.SELECT_TASK none) rfl rfl
      (fun h => PageAction.noConfusion h)
  · exact (claim_C8 stateW).2.1 .LOAD_TASKS_START
      (fun h => Option.noConfusion h) rfl

/-! ## Cascade-redo atomicity -/

lemma cascadeArchive_none_iff (ok : Nat → Bool) (uid : String) (k : Nat) :
    ∀ l : List (Nat × SegmentResult),
      (cascadeArchive ok uid k l).2 = none ↔
        ∃ p ∈ l, k ≤ p.1 ∧ p.2.status = .completed ∧ ok p.1 = false
  | [] => by simp [cascadeArchive]
  | (i, r) :: rest => by
    have ih := cascadeArchive_none_iff ok uid k rest
    by_cases hin : k ≤ i ∧ r.status = .completed
    · by_cases hok : ok i
      · simp only [cascadeArchive]
        rw [if_pos hin, if_pos hok]
        simp only [Option.map_eq_none']
        rw [ih]
        constructor
        · rintro ⟨p, hp, h⟩
          exact ⟨p, List.mem_cons_of_mem _ hp, h⟩
        · rintro ⟨p, hp, h⟩
          rcases List.mem_cons.mp hp with rfl | hp'
          · exact absurd hok (by simpa using h.2.2)
          · exact ⟨p, hp', h⟩
      · simp only [cascadeArchive]
        rw [if_pos hin, if_neg hok]
        constructor
        · intro _
          exact ⟨(i, r), List.mem_cons_self _ _,
            hin.1, hin.2, by simpa using hok⟩
        · intro _
          rfl
    · simp only [cascadeArchive]
      rw [if_neg hin]
      rw [ih]
      constructor
      · rintro ⟨p, hp, h⟩
        exact ⟨p, List.mem_cons_of_mem _ hp, h⟩
      · rintro ⟨p, hp, h⟩
        rcases List.mem_cons.mp hp with rfl | hp'
        · exact absurd ⟨h.1, h.2.1⟩ hin
        · exact ⟨p, hp', h⟩

lemma cascadeArchive_some (ok : Nat → Bool) (uid : String) (k : Nat) :
    ∀ (l : List (Nat × SegmentResult)) (entries : List ArchiveEntry),
      (cascadeArchive ok uid k l).2 = some entries →
      entries = (l.filter (fun p => k ≤ p.1 ∧ p.2.status = .completed)).map
          (fun p => ⟨uid, p.1, p.2⟩) ∧
        (cascadeArchive ok uid k l).1 = entries
  | [], entries => by
    intro h
    simp [cascadeArchive] at h
    simp [cascadeArchive, ← h]
  | (i, r) :: rest, entries => by
    intro h
    by_cases hin : k ≤ i ∧ r.status = .completed
    · by_cases hok : ok i
      · simp only [cascadeArchive] at h ⊢
        rw [if_pos hin, if_pos hok] at h ⊢
        simp only [Option.map_eq_some'] at h
        obtain ⟨tail, htail, rfl⟩ := h
        have ih := cascadeArchive_some ok uid k rest tail htail
        rw [List.filter_cons, if_pos (by simpa using hin)]
        simp only [List.map_cons]
        exact ⟨by rw [← ih.1], by rw [ih.2]⟩
      · simp only [cascadeArchive] at h
        rw [if_pos hin, if_neg hok] at h
        exact Option.noConfusion h
    · simp only [cascadeArchive] at h ⊢
      rw [if_neg hin] at h ⊢
      have ih := cascadeArchive_some ok uid k rest entries h
      rw [List.filter_cons, if_neg (by simpa using hin)]
      exact ih

/-- C4.  Cascade redo is all-or-nothing: the operation reports failure
exactly when some archive write for a `completed` segment at index ≥
`fromIndex` fails, and in that case the unit record is left entirely
unchanged; on success it returns exactly the archived snapshots and
the cleared indices (the `completed` positions ≥ `fromIndex`), appends
exactly those snapshots to the archive log, resets exactly those
SegmentResults to fresh `pending` records, leaves every other field
and segment untouched, and recomputes the unit status from the new
results. -/
theorem claim_C4 (archiveOk : Nat → Bool) (w : CascadeWorld) (fromIndex : Nat) :
    ((cascadeRedo archiveOk w fromIndex false).2 = none ↔
      ∃ p ∈ w.unit.results.enum, fromIndex ≤ p.1 ∧ p.2.status = .completed ∧
        archiveOk p.1 = false) ∧
    ((cascadeRedo archiveOk w fromIndex false).2 = none →
      (cascadeRedo archiveOk w fromIndex false).1.unit = w.unit) ∧
    (∀ (entries : List ArchiveEntry) (cleared : List Nat),
      (cascadeRedo archiveOk w fromIndex false).2 = some (entries, cleared) →
      cleared = (w.unit.results.enum.filter
        (fun p => fromIndex ≤ p.1 ∧ p.2.status = .completed)).map (·.1) ∧
      entries = (w.unit.results.enum.filter
        (fun p => fromIndex ≤ p.1 ∧ p.2.status = .completed)).map
          (fun p => ⟨w.unit.id, p.1, p.2⟩) ∧
      (cascadeRedo archiveOk w fromIndex false).1.archive =
        w.archive ++ entries ∧
      (cascadeRedo archiveOk w fromIndex false).1.unit.id = w.unit.id ∧
      (cascadeRedo archiveOk w fromIndex false).1.unit.specs = w.unit.specs ∧
      (cascadeRedo archiveOk w fromIndex false).1.unit.errorMessage =
        w.unit.errorMessage ∧
      (∀ i : Nat, (cascadeRedo archiveOk w fromIndex false).1.unit.results[i]? =
        (w.unit.results[i]?).map (fun r =>
          if fromIndex ≤ i ∧ r.status = .completed
          then clearedSegmentResult else r)) ∧
      (cascadeRedo archiveOk w fromIndex false).1.unit.status =
        deriveUnitStatus (cascadeRedo archiveOk w fromIndex false).1.unit.results) := by
  cases harch : (cascadeArchive archiveOk w.unit.id fromIndex
      w.unit.results.enum).2 with
  | none =>
    refine ⟨?_, ?_, ?_⟩
    · simp only [cascadeRedo, harch]
      rw [← cascadeArchive_none_iff archiveOk w.unit.id fromIndex
        w.unit.results.enum, harch]
      simp
    · intro _
      simp [cascadeRedo, harch]
    · intro entries cleared h
      simp [cascadeRedo, harch] at h
  | some entries0 =>
    have hsome := cascadeArchive_some archiveOk w.unit.id fromIndex
      w.unit.results.enum entries0 harch
    refine ⟨?_, ?_, ?_⟩
    · simp only [cascadeRedo, harch]
      rw [← cascadeArchive_none_iff archiveOk w.unit.id fromIndex
        w.unit.results.enum, harch]
      simp
    · intro h
      simp [cascadeRedo, harch] at h
    · intro entries cleared h
      simp only [cascadeRedo, harch] at h ⊢
      have h' := Option.some.inj h
      have h1 : entries0 = entries := congrArg Prod.fst h'
      have h2 : (w.unit.results.enum.filter
          (fun p => fromIndex ≤ p.1 ∧ p.2.status = .completed)).map (·.1) =
          cleared := congrArg Prod.snd h'
      subst h1
      subst h2
      refine ⟨rfl, hsome.1, ?_, trivial, by simp, trivial, ?_, trivial⟩
      · rw [hsome.2]
      · intro i
        rw [List.getElem?_map, List.getElem?_enum]
        cases hr : w.unit.results[i]? with
        | none => rfl
        | some r => rfl

/-- A three-segment unit with every segment `completed`. -/
def unitW : ProductionUnit :=
  { id := "U1"
  , specs := [some "s0", some "s1", some "s2"]
  , results :=
      [ ⟨.completed, some "a0.mp4", some "ff0", some "lf0"⟩
      , ⟨.completed, some "a1.mp4", some "ff1", some "lf1"⟩
      , ⟨.completed, some "a2.mp4", some "ff2", some "lf2"⟩ ]
  , status := .allSegmentsReady
  , errorMessage := none }

/-- The world holding `unitW` and an empty archive log. -/
def worldW : CascadeWorld := { unit := unitW, archive := [] }

/-- Witness for C4: redoing `unitW` from index 1 with all archive
writes succeeding leaves the specs untouched, while a failing archive
write for segment 2 leaves the whole unit unchanged. -/
theorem claim_C4_witness :
    ((cascadeRedo (fun _ => true) worldW 1 false).1.unit.specs =
      worldW.unit.specs) ∧
    ((cascadeRedo (fun i => i != 2) worldW 1 false).1.unit = worldW.unit) := by
  constructor
  · exact ((claim_C4 (fun _ => true) worldW 1).2.2
      [⟨"U1", 1, ⟨.completed, some "a1.mp4", some "ff1", some "lf1"⟩⟩,
       ⟨"U1", 2, ⟨.completed, some "a2.mp4", some "ff2", some "lf2"⟩⟩]
      [1, 2] (by decide)).2.2.2.2.1
  · exact (claim_C4 (fun i => i != 2) worldW 1).2.1 (by decide)

end PetForge
